import Mathlib

/-
Verification development for the Studienfortschritt-Dashboard core.

The Python domain model (models.py) and application layer (study_service.py)
are embedded shallowly:
* Python floats are modelled as exact rationals (ℚ); all arithmetic occurring
  in the calculators is on small decimal values, so the rational model tracks
  the intended real-number semantics; `round(x, 2)`, `round(x)` and the
  `:.0f` format are modelled by round-half-to-even (`rhe`), Python's
  documented rounding mode.
* `datetime.date` is modelled by a year/month/day record with a proleptic
  Gregorian ordinal (`toOrdinal`); date subtraction yields exact day counts,
  matching `timedelta.days` for date differences.
* A Python `ZeroDivisionError` is modelled by `Option.none` on the one
  calculator that can raise it (`berechneNotendurchschnittVerlauf`).
* `list.sort` (Timsort) is modelled by a stable insertion sort on an
  integer key; a stable sort's output is uniquely determined by the input,
  so the two agree.
-/

/-- Round half to even, Python's rounding mode for `round` and float
formatting. -/
def rhe (q : ℚ) : ℤ :=
  if q - ⌊q⌋ < 1/2 then ⌊q⌋
  else if (1 : ℚ)/2 < q - ⌊q⌋ then ⌊q⌋ + 1
  else if ⌊q⌋ % 2 = 0 then ⌊q⌋ else ⌊q⌋ + 1

/-- Python's `round(x, 2)` on the rational model. -/
def pyRound2 (q : ℚ) : ℚ := (rhe (q * 100) : ℚ) / 100

/-- Gregorian leap-year test, as in `calendar.isleap`. -/
def istSchaltjahr (y : ℕ) : Bool :=
  (y % 4 == 0 && y % 100 != 0) || (y % 400 == 0)

/-- Days in a month, as in `calendar.monthrange(y, m)[1]` (for `1 ≤ m ≤ 12`). -/
def daysInMonth (y m : ℕ) : ℕ :=
  if m = 2 then (if istSchaltjahr y then 29 else 28)
  else if m = 4 ∨ m = 6 ∨ m = 9 ∨ m = 11 then 30
  else 31

/-- A calendar date, as `datetime.date`. -/
structure PyDate where
  year : ℕ
  month : ℕ
  day : ℕ
deriving DecidableEq

/-- Days of the year `y` that lie before month `m`. -/
def daysBeforeMonth (y m : ℕ) : ℕ :=
  ((List.range (m - 1)).map (fun i => daysInMonth y (i + 1))).sum

/-- Proleptic Gregorian ordinal, as `date.toordinal` (0001-01-01 ↦ 1). -/
def toOrdinal (d : PyDate) : ℕ :=
  365 * (d.year - 1) + ((d.year - 1) / 4 - (d.year - 1) / 100) + (d.year - 1) / 400
    + daysBeforeMonth d.year d.month + d.day

/-- `(a - b).days` for dates: difference of ordinals. -/
def dateSub (a b : PyDate) : ℤ := (toOrdinal a : ℤ) - (toOrdinal b : ℤ)

/-- Date order (`a <= b`); for valid dates this is `datetime.date`'s order. -/
def dateLe (a b : PyDate) : Prop := toOrdinal a ≤ toOrdinal b

instance : DecidableRel dateLe := fun a b => Nat.decLe (toOrdinal a) (toOrdinal b)

/-- Python's `min` on two dates (returns the first argument on ties). -/
def minDate (a b : PyDate) : PyDate :=
  if toOrdinal a ≤ toOrdinal b then a else b

/-- A date is structurally valid (what `datetime.date` enforces, minus the
year ≤ 9999 cap, which no calculation depends on). -/
def ValidDate (d : PyDate) : Prop :=
  1 ≤ d.month ∧ d.month ≤ 12 ∧ 1 ≤ d.day ∧ d.day ≤ daysInMonth d.year d.month

instance : DecidablePred ValidDate := fun _ => by unfold ValidDate; infer_instance

/-- `Pruefungsleistung` (models.py): grade and date of an exam result. -/
structure Pruefungsleistung where
  note : ℚ
  datum : PyDate
deriving DecidableEq

/-- `Modul` (models.py): name, credits, optional start date, and the
composition-owned optional exam result. -/
structure Modul where
  name : String
  ects : ℤ
  startdatum : Option PyDate
  pruefungsleistung : Option Pruefungsleistung
deriving DecidableEq

/-- `Modul.hasPruefungsleistung`. -/
def Modul.hasPruefungsleistung (m : Modul) : Bool := m.pruefungsleistung.isSome

/-- `Modul.berechneBenoetigteTage`: days needed to finish the module, or
`None` when the start date or the exam result is missing, or the exam date
precedes the start date. -/
def Modul.berechneBenoetigteTage (m : Modul) : Option ℤ :=
  match m.pruefungsleistung, m.startdatum with
  | none, _ => none
  | _, none => none
  | some pl, some sd =>
    if toOrdinal pl.datum < toOrdinal sd then none
    else some (dateSub pl.datum sd)

/-- `Studiengang` (models.py): name, planned semesters, total credits,
start date, and the ordered module list. -/
structure Studiengang where
  name : String
  regelstudienzeit : ℤ
  ects_gesamt : ℤ
  startdatum : PyDate
  module_list : List Modul
deriving DecidableEq

/-- `Studiengang.berechneErreichteECTS`: loop accumulating the credits of
completed modules. -/
def Studiengang.berechneErreichteECTS (sg : Studiengang) : ℤ :=
  sg.module_list.foldl
    (fun acc m => if m.pruefungsleistung.isSome then acc + m.ects else acc) 0

/-- `Studiengang.berechneTageProModulRichtwert`: the dynamic days-per-module
pacing target, with the reference date made explicit. -/
def Studiengang.berechneTageProModulRichtwert (sg : Studiengang) (datum : PyDate) : ℚ :=
  let gesamt_studium_tag : ℚ := (sg.regelstudienzeit : ℚ) * ((365.25 : ℚ) / 2)
  let gesamt_urlaub_tage : ℚ := (sg.regelstudienzeit : ℚ) * ((42 : ℚ) / 2)
  let gesamt_netto_tage : ℚ := gesamt_studium_tag - gesamt_urlaub_tage
  let verstrichene_tage : ℤ := dateSub datum sg.startdatum
  let verbleibende_tage : ℚ := gesamt_netto_tage - (verstrichene_tage : ℚ)
  let ausstehende_ects : ℤ := sg.ects_gesamt - sg.berechneErreichteECTS
  if ausstehende_ects ≤ 0 then 0
  else if verbleibende_tage ≤ 0 then 999
  else pyRound2 (verbleibende_tage / (ausstehende_ects : ℚ) * 5)

/-- Accumulation step of `berechneNotendurchschnitt`'s loop: cumulative
credits and cumulative weighted grade sum. -/
def notenStep (acc : ℚ × ℚ) (m : Modul) : ℚ × ℚ :=
  match m.pruefungsleistung with
  | some pl => (acc.1 + (m.ects : ℚ), acc.2 + pl.note * (m.ects : ℚ))
  | none => acc

/-- `Studiengang.berechneNotendurchschnitt`: credit-weighted grade average
over completed modules, `None` when the accumulated credits are zero. -/
def Studiengang.berechneNotendurchschnitt (sg : Studiengang) : Option ℚ :=
  let acc := sg.module_list.foldl notenStep (0, 0)
  if acc.1 = 0 then none else some (pyRound2 (acc.2 / acc.1))

/-- One prepared entry of `berechneNotendurchschnittVerlauf`'s working list
(`abschlussdatum`, `note`, `ects`). -/
structure Eintrag where
  abschlussdatum : PyDate
  note : ℚ
  ects : ℤ
deriving DecidableEq

/-- The completed modules prepared as entries, in module insertion order
(step 1 of `berechneNotendurchschnittVerlauf`). -/
def abgeschlosseneEintraege (l : List Modul) : List Eintrag :=
  l.filterMap (fun m =>
    m.pruefungsleistung.map (fun pl => ⟨pl.datum, pl.note, m.ects⟩))

/-- Stable insertion by a numeric key: the new element goes before the first
element whose key is ≥ its own. -/
def insertByKey (key : α → ℕ) (a : α) : List α → List α
  | [] => [a]
  | b :: t => if key a ≤ key b then a :: b :: t else b :: insertByKey key a t

/-- Stable sort by a numeric key; Python's `list.sort(key=...)` is a stable
sort, and a stable sort's output is uniquely determined, so this models it. -/
def sortByKey (key : α → ℕ) : List α → List α
  | [] => []
  | a :: t => insertByKey key a (sortByKey key t)

/-- Sorting of the prepared entries by completion date, ascending. -/
def sortiereEintraege (l : List Eintrag) : List Eintrag :=
  sortByKey (fun e => toOrdinal e.abschlussdatum) l

/-- Cumulative loop of `berechneNotendurchschnittVerlauf` (step 2), with the
running credit and weighted-sum accumulators explicit. `none` models the
`ZeroDivisionError` Python raises when the running credit sum is zero. -/
def verlaufAux (ects_kum summe : ℚ) : List Eintrag → Option (List ℚ)
  | [] => some []
  | e :: t =>
    if ects_kum + (e.ects : ℚ) = 0 then none
    else
      match verlaufAux (ects_kum + (e.ects : ℚ)) (summe + e.note * (e.ects : ℚ)) t with
      | none => none
      | some r =>
        some (pyRound2 ((summe + e.note * (e.ects : ℚ)) / (ects_kum + (e.ects : ℚ))) :: r)

/-- `Studiengang.berechneNotendurchschnittVerlauf`: running weighted grade
averages, one per completed module, in completion-date order. -/
def Studiengang.berechneNotendurchschnittVerlauf (sg : Studiengang) : Option (List ℚ) :=
  let ab := abgeschlosseneEintraege sg.module_list
  if ab.isEmpty then some []
  else verlaufAux 0 0 (sortiereEintraege ab)

/-- `StudienService._berechne_enddatum`: start date plus
`regelstudienzeit * 6` months, day-of-month clamped to the target month. -/
def berechne_enddatum (startdatum : PyDate) (regelstudienzeit_semester : ℤ) : PyDate :=
  let monate : ℕ := (max (regelstudienzeit_semester * 6) 0).toNat
  let jahr := startdatum.year + (startdatum.month - 1 + monate) / 12
  let monat := (startdatum.month - 1 + monate) % 12 + 1
  let tag := min startdatum.day (daysInMonth jahr monat)
  ⟨jahr, monat, tag⟩

/-- `StudienService._runde_zu_modul_ects`: round to a multiple of 5 and clamp
into `[0, gesamt_ects]`; `0` when the credit target is non-positive. -/
def runde_zu_modul_ects (raw_value : ℚ) (gesamt_ects : ℤ) : ℤ :=
  if gesamt_ects ≤ 0 then 0
  else max 0 (min (rhe (raw_value / 5) * 5) gesamt_ects)

/-- `ProgressDaten` (study_service.py). -/
structure ProgressDaten where
  ist_ects : ℤ
  soll_ects : ℤ
  gesamt_ects : ℤ
deriving DecidableEq

/-- `StudienService._berechne_progress_daten`, with `date.today()` made an
explicit `heute` parameter. -/
def berechne_progress_daten (sg : Studiengang) (heute : PyDate) : ProgressDaten :=
  let ist_ects := sg.berechneErreichteECTS
  let gesamt_ects := sg.ects_gesamt
  let enddatum := berechne_enddatum sg.startdatum sg.regelstudienzeit
  let gesamt_tage : ℤ := max (dateSub enddatum sg.startdatum) 0
  let heutedatum := minDate heute enddatum
  let verstrichene_tage : ℤ := max (dateSub heutedatum sg.startdatum) 0
  let soll_anteil : ℚ :=
    if 0 < gesamt_tage then (verstrichene_tage : ℚ) / (gesamt_tage : ℚ) else 0
  let raw_soll_ects : ℚ := (gesamt_ects : ℚ) * min soll_anteil 1
  ⟨ist_ects, runde_zu_modul_ects raw_soll_ects gesamt_ects, gesamt_ects⟩

/-- `PrognoseDaten` (study_service.py). -/
structure PrognoseDaten where
  noten_ziel_erreicht : Bool
  zeit_ziel_erreicht : Bool
  regelstudienzeit_jahre : ℚ
deriving DecidableEq

/-- `StudienService._berechne_prognose_daten`: goal forecast; consumes the
already-computed progress data instead of recomputing it. -/
def berechne_prognose_daten (sg : Studiengang) (progress : ProgressDaten)
    (notendurchschnitt : Option ℚ) : PrognoseDaten :=
  let note_ziel : Bool :=
    match notendurchschnitt with
    | none => false
    | some nd => decide (nd ≤ (1.9 : ℚ))
  let zeit_ziel : Bool := decide (progress.soll_ects ≤ progress.ist_ects)
  ⟨note_ziel, zeit_ziel, (sg.regelstudienzeit : ℚ) / 2⟩

/-- `StudienService._ermittle_zeitaufwand_history`: completed modules with a
defined day count, sorted by exam date, projected to (name, days). -/
def ermittle_zeitaufwand_history (sg : Studiengang) : List (String × ℤ) :=
  let daten : List (String × ℤ × PyDate) :=
    sg.module_list.filterMap (fun m =>
      match m.pruefungsleistung with
      | none => none
      | some pl =>
        match m.berechneBenoetigteTage with
        | none => none
        | some tage => some (m.name, tage, pl.datum))
  (sortByKey (fun x => toOrdinal x.2.2) daten).map (fun x => (x.1, x.2.1))

/-- The human-readable pacing text of `erzeuge_dashboard_daten`:
`"∞" if richtwert >= 999.0 else f"{richtwert:.0f} Tage"`. -/
def tageProModulText (richtwert : ℚ) : String :=
  if (999 : ℚ) ≤ richtwert then "∞" else toString (rhe richtwert) ++ " Tage"

/-- `DashboardDaten` (study_service.py); `notenverlauf` is `Option`-valued
because the underlying calculator can raise. -/
structure DashboardDaten where
  studiengang_name : String
  progress : ProgressDaten
  notendurchschnitt : Option ℚ
  tage_pro_modul_richtwert : ℚ
  tage_pro_modul_text : String
  prognose : PrognoseDaten
  notenverlauf : Option (List ℚ)
  zeitaufwand_history : List (String × ℤ)

/-- `StudienService.erzeuge_dashboard_daten` after the successful load of the
`Studiengang`, with the reference date explicit. -/
def erzeuge_dashboard_daten (sg : Studiengang) (heute : PyDate) : DashboardDaten :=
  let progress := berechne_progress_daten sg heute
  let notendurchschnitt := sg.berechneNotendurchschnitt
  let richtwert := sg.berechneTageProModulRichtwert heute
  let tage_text := tageProModulText richtwert
  let prognose := berechne_prognose_daten sg progress notendurchschnitt
  ⟨sg.name, progress, notendurchschnitt, richtwert, tage_text, prognose,
    sg.berechneNotendurchschnittVerlauf, ermittle_zeitaufwand_history sg⟩

/-- One row of the `pruefungsleistung` table. -/
structure PruefRow where
  id : ℤ
  modul_id : ℤ
  note : ℚ
  datum : PyDate
deriving DecidableEq

/-- The slice of the SQLite state `erfasse_pruefungsleistung` touches:
existing module ids, the exam-result rows, and the autoincrement counter. -/
structure DBState where
  module_ids : List ℤ
  pruefungen : List PruefRow
  next_id : ℤ
deriving DecidableEq

/-- `DatenbankConnector.get_all_pruefungsleistungen(modul_id)`: the rows of
one module (the `ORDER BY datum` only reorders; emptiness is unaffected). -/
def get_all_pruefungsleistungen (s : DBState) (modul_id : ℤ) : List PruefRow :=
  s.pruefungen.filter (fun p => p.modul_id = modul_id)

/-- `DatenbankConnector.create_pruefungsleistung`: insert one row, return its
fresh primary key. -/
def create_pruefungsleistung (s : DBState) (modul_id : ℤ) (note : ℚ)
    (datum : PyDate) : ℤ × DBState :=
  (s.next_id,
   ⟨s.module_ids, s.pruefungen ++ [⟨s.next_id, modul_id, note, datum⟩], s.next_id + 1⟩)

/-- `StudienService.erfasse_pruefungsleistung`: grade range check, module
existence check, no-existing-result check, then insert. -/
def erfasse_pruefungsleistung (s : DBState) (modul_id : ℤ) (note : ℚ)
    (datum : PyDate) : Option ℤ × DBState :=
  if note < 1 ∨ 4 < note then (none, s)
  else if modul_id ∉ s.module_ids then (none, s)
  else if get_all_pruefungsleistungen s modul_id ≠ [] then (none, s)
  else
    let r := create_pruefungsleistung s modul_id note datum
    (some r.1, r.2)

/-- Number of exam-result rows of a module. -/
def anzahlPruefungen (s : DBState) (modul_id : ℤ) : ℕ :=
  (get_all_pruefungsleistungen s modul_id).length

/-- Spec-side formula: `outstandingCredits = totalCredits - EarnedCredits`. -/
def outstandingCredits (sg : Studiengang) : ℤ :=
  sg.ects_gesamt - sg.berechneErreichteECTS

/-- Spec-side formula: `remainingDays = plannedSemesters * (365.25/2)
- plannedSemesters * (42/2) - (asOfDate - startDate).days`. -/
def remainingDays (sg : Studiengang) (asOfDate : PyDate) : ℚ :=
  (sg.regelstudienzeit : ℚ) * ((365.25 : ℚ) / 2)
    - (sg.regelstudienzeit : ℚ) * ((42 : ℚ) / 2)
    - (dateSub asOfDate sg.startdatum : ℚ)

/-- Credit sum of a list of entries. -/
def eintragSumE (l : List Eintrag) : ℚ := (l.map (fun e => (e.ects : ℚ))).sum

/-- Credit-weighted grade sum of a list of entries. -/
def eintragSumW (l : List Eintrag) : ℚ := (l.map (fun e => e.note * (e.ects : ℚ))).sum

/-- Spec-side formula for the trajectory: the k-th value (0-based) is the
rounded weighted average of the first k+1 entries. -/
def specCumAvgs (l : List Eintrag) : List ℚ :=
  (List.range l.length).map
    (fun k => pyRound2 (eintragSumW (l.take (k + 1)) / eintragSumE (l.take (k + 1))))

/-- The grades of a list of entries. -/
def gradesOf (l : List Eintrag) : List ℚ := l.map Eintrag.note

/-- Exam date of a module, defaulting when no exam result exists. -/
def plDatumOrDefault (m : Modul) : PyDate :=
  (m.pruefungsleistung.map Pruefungsleistung.datum).getD ⟨1, 1, 1⟩

/-- Days required of a module, defaulting when undefined. -/
def tageOrDefault (m : Modul) : ℤ := m.berechneBenoetigteTage.getD 0

/-- Spec-side reading of the time-effort history source data: every module
with a defined `daysRequired`, in insertion order, as (name, days, date). -/
def zeitaufwandEintraege (sg : Studiengang) : List (String × ℤ × PyDate) :=
  (sg.module_list.filter (fun m => m.berechneBenoetigteTage.isSome)).map
    (fun m => (m.name, tageOrDefault m, plDatumOrDefault m))

/-- 2025-09-01, the start date of the concrete scenarios. -/
def dStart : PyDate := ⟨2025, 9, 1⟩

/-- 2025-10-01. -/
def dOkt : PyDate := ⟨2025, 10, 1⟩

/-- 2025-11-15. -/
def dNov : PyDate := ⟨2025, 11, 15⟩

/-- 2030-01-01, far past the planned end of the concrete programs. -/
def dFern : PyDate := ⟨2030, 1, 1⟩

/-- A completed module carrying zero credits (constructible: the entities do
not validate credits). -/
def modulA : Modul := ⟨"Nullmodul", 0, none, some ⟨2, dOkt⟩⟩

/-- Program with exactly one completed module, which has zero credits. -/
def sgA : Studiengang := ⟨"A", 8, 180, dStart, [modulA]⟩

/-- A completed 5-credit module whose grade 1.002 is not a 2-decimal value. -/
def modulB : Modul := ⟨"Feinmodul", 5, none, some ⟨501/500, dOkt⟩⟩

/-- Program whose only grade is 1.002. -/
def sgB : Studiengang := ⟨"B", 8, 180, dStart, [modulB]⟩

/-- Program with 8 total credits (not a multiple of 5) and no modules. -/
def sgCvier : Studiengang := ⟨"C", 6, 8, dStart, []⟩

/-- Program with 5 outstanding credits and the full 8-semester timeline. -/
def sgCsechs : Studiengang := ⟨"D", 8, 5, dStart, []⟩

/-- The round-trip module of the spec's testable-properties section:
5 credits, started 2025-09-01, completed 2025-10-01 with grade 1.0. -/
def modulW : Modul := ⟨"Mathe", 5, some dStart, some ⟨1, dOkt⟩⟩

/-- A second completed module: 10 credits, grade 2.0, exam 2025-11-15. -/
def modulWzwei : Modul := ⟨"Informatik", 10, some dStart, some ⟨2, dNov⟩⟩

/-- An unfinished module without exam result. -/
def modulWdrei : Modul := ⟨"Projekt", 5, some dOkt, none⟩

/-- Concrete witness program. -/
def sgW : Studiengang := ⟨"W", 8, 180, dStart, [modulW, modulWzwei, modulWdrei]⟩

/-- `sgW` with its module list permuted. -/
def sgWperm : Studiengang := ⟨"W", 8, 180, dStart, [modulWdrei, modulWzwei, modulW]⟩

/-- Concrete database state: modules 1 and 2 exist, module 2 already has an
exam result, the autoincrement counter stands at 8. -/
def dbW : DBState := ⟨[1, 2], [⟨7, 2, 2, dOkt⟩], 8⟩

-- ------------------------------------------------------------------
-- Concrete date facts, proved by kernel computation
-- ------------------------------------------------------------------

theorem toOrd_dStart : toOrdinal dStart = 739495 := by decide
theorem toOrd_dOkt : toOrdinal dOkt = 739525 := by decide
theorem toOrd_dNov : toOrdinal dNov = 739570 := by decide
theorem toOrd_dFern : toOrdinal dFern = 741078 := by decide
theorem endCvier : berechne_enddatum dStart 6 = (⟨2028, 9, 1⟩ : PyDate) := by decide
theorem toOrd_endCvier : toOrdinal ⟨2028, 9, 1⟩ = 740591 := by decide

-- ------------------------------------------------------------------
-- Rounding lemmas
-- ------------------------------------------------------------------

theorem rhe_le (q : ℚ) : (rhe q : ℚ) ≤ q + 1/2 := by
  have hf : (⌊q⌋ : ℚ) ≤ q := Int.floor_le q
  have hc : q < (⌊q⌋ : ℚ) + 1 := Int.lt_floor_add_one q
  unfold rhe
  split_ifs <;> push_cast <;> linarith

theorem le_rhe (q : ℚ) : q - 1/2 ≤ (rhe q : ℚ) := by
  have hf : (⌊q⌋ : ℚ) ≤ q := Int.floor_le q
  have hc : q < (⌊q⌋ : ℚ) + 1 := Int.lt_floor_add_one q
  unfold rhe
  split_ifs <;> push_cast <;> linarith

theorem rhe_nonneg {q : ℚ} (h : 0 ≤ q) : 0 ≤ rhe q := by
  by_contra hneg
  push_neg at hneg
  have h1 : rhe q ≤ -1 := by omega
  have h2 : (rhe q : ℚ) ≤ -1 := by exact_mod_cast h1
  have h3 := le_rhe q
  linarith

theorem pyRound2_le (q : ℚ) : pyRound2 q ≤ q + 1/200 := by
  have h := rhe_le (q * 100)
  unfold pyRound2
  linarith

theorem le_pyRound2 (q : ℚ) : q - 1/200 ≤ pyRound2 q := by
  have h := le_rhe (q * 100)
  unfold pyRound2
  linarith

-- ------------------------------------------------------------------
-- Loop characterizations
-- ------------------------------------------------------------------

theorem foldl_ects (l : List Modul) (a : ℤ) :
    l.foldl (fun acc m => if m.pruefungsleistung.isSome then acc + m.ects else acc) a
      = a + ((l.filter (fun m => m.pruefungsleistung.isSome)).map Modul.ects).sum := by
  induction l generalizing a with
  | nil => simp
  | cons m t ih =>
    by_cases hm : m.pruefungsleistung.isSome
    · simp only [List.foldl_cons, hm, if_true, List.filter_cons, List.map_cons, List.sum_cons, ih]
      ring
    · simp only [List.foldl_cons, hm, if_false, List.filter_cons, ih]
      simp [hm]

theorem erreichte_eq_sum (sg : Studiengang) :
    sg.berechneErreichteECTS
      = ((sg.module_list.filter (fun m => m.pruefungsleistung.isSome)).map Modul.ects).sum := by
  unfold Studiengang.berechneErreichteECTS
  rw [foldl_ects]
  ring

theorem eintragSumE_cons (e : Eintrag) (l : List Eintrag) :
    eintragSumE (e :: l) = (e.ects : ℚ) + eintragSumE l := by
  simp [eintragSumE]

theorem eintragSumW_cons (e : Eintrag) (l : List Eintrag) :
    eintragSumW (e :: l) = e.note * (e.ects : ℚ) + eintragSumW l := by
  simp [eintragSumW]

theorem foldl_noten (l : List Modul) (c s : ℚ) :
    l.foldl notenStep (c, s)
      = (c + eintragSumE (abgeschlosseneEintraege l),
         s + eintragSumW (abgeschlosseneEintraege l)) := by
  induction l generalizing c s with
  | nil => simp [abgeschlosseneEintraege, eintragSumE, eintragSumW]
  | cons m t ih =>
    cases hm : m.pruefungsleistung with
    | none =>
      simp [List.foldl_cons, notenStep, hm, ih, abgeschlosseneEintraege, List.filterMap_cons]
    | some pl =>
      simp only [List.foldl_cons, notenStep, hm, ih, abgeschlosseneEintraege,
        List.filterMap_cons, Option.map_some', eintragSumE_cons, eintragSumW_cons]
      rw [Prod.mk.injEq]
      constructor <;> ring

theorem nd_eq (sg : Studiengang) :
    sg.berechneNotendurchschnitt
      = if eintragSumE (abgeschlosseneEintraege sg.module_list) = 0 then none
        else some (pyRound2 (eintragSumW (abgeschlosseneEintraege sg.module_list)
          / eintragSumE (abgeschlosseneEintraege sg.module_list))) := by
  unfold Studiengang.berechneNotendurchschnitt
  rw [foldl_noten]
  simp

-- ------------------------------------------------------------------
-- Stable sort lemmas
-- ------------------------------------------------------------------

theorem insertByKey_perm {α : Type*} (key : α → ℕ) (a : α) (l : List α) :
    (insertByKey key a l).Perm (a :: l) := by
  induction l with
  | nil => simp [insertByKey]
  | cons b t ih =>
    unfold insertByKey
    split_ifs
    · exact List.Perm.refl _
    · exact (ih.cons b).trans (List.Perm.swap a b t)

theorem sortByKey_perm {α : Type*} (key : α → ℕ) (l : List α) :
    (sortByKey key l).Perm l := by
  induction l with
  | nil => simp [sortByKey]
  | cons a t ih =>
    exact (insertByKey_perm key a (sortByKey key t)).trans (ih.cons a)

theorem mem_insertByKey {α : Type*} (key : α → ℕ) {a x : α} {l : List α} :
    x ∈ insertByKey key a l ↔ x = a ∨ x ∈ l :=
  ((insertByKey_perm key a l).mem_iff).trans (by simp)

theorem insertByKey_pairwise {α : Type*} (key : α → ℕ) (a : α) {l : List α}
    (h : List.Pairwise (fun x y => key x ≤ key y) l) :
    List.Pairwise (fun x y => key x ≤ key y) (insertByKey key a l) := by
  induction l with
  | nil => simp [insertByKey]
  | cons b t ih =>
    unfold insertByKey
    split_ifs with hab
    · refine List.Pairwise.cons ?_ h
      intro x hx
      rcases List.mem_cons.mp hx with rfl | hx
      · exact hab
      · exact le_trans hab (List.rel_of_pairwise_cons h hx)
    · refine List.Pairwise.cons ?_ (ih h.of_cons)
      intro x hx
      rcases (mem_insertByKey key).mp hx with rfl | hx
      · exact le_of_not_le hab
      · exact List.rel_of_pairwise_cons h hx

theorem sortByKey_pairwise {α : Type*} (key : α → ℕ) (l : List α) :
    List.Pairwise (fun x y => key x ≤ key y) (sortByKey key l) := by
  induction l with
  | nil => simp [sortByKey]
  | cons a t ih => exact insertByKey_pairwise key a ih

theorem insertByKey_filter_eq {α : Type*} (key : α → ℕ) {a : α} {n : ℕ}
    (hk : key a = n) (l : List α) :
    (insertByKey key a l).filter (fun x => key x == n)
      = a :: l.filter (fun x => key x == n) := by
  induction l with
  | nil => simp [insertByKey, List.filter, hk]
  | cons b t ih =>
    unfold insertByKey
    split_ifs with hab
    · simp [List.filter_cons, hk]
    · have hbn : (key b == n) = false := by
        simp only [beq_eq_false_iff_ne, ne_eq]
        omega
      simp [List.filter_cons, hbn, ih]

theorem insertByKey_filter_ne {α : Type*} (key : α → ℕ) {a : α} {n : ℕ}
    (hk : key a ≠ n) (l : List α) :
    (insertByKey key a l).filter (fun x => key x == n)
      = l.filter (fun x => key x == n) := by
  have hk' : (key a == n) = false := by simp [hk]
  induction l with
  | nil => simp [insertByKey, List.filter, hk']
  | cons b t ih =>
    unfold insertByKey
    split_ifs with hab
    · simp [List.filter_cons, hk']
    · simp [List.filter_cons, ih]

theorem sortByKey_filter {α : Type*} (key : α → ℕ) (l : List α) (n : ℕ) :
    (sortByKey key l).filter (fun x => key x == n)
      = l.filter (fun x => key x == n) := by
  induction l with
  | nil => simp [sortByKey]
  | cons a t ih =>
    unfold sortByKey
    by_cases hk : key a = n
    · rw [insertByKey_filter_eq key hk, ih, List.filter_cons]
      simp [hk]
    · rw [insertByKey_filter_ne key hk, ih, List.filter_cons]
      simp [hk]

theorem filter_of_filter_stronger {α : Type*} (p q : α → Bool) (l : List α)
    (h : ∀ x, p x = true → q x = true) :
    (l.filter q).filter p = l.filter p := by
  rw [List.filter_filter]
  refine List.filter_congr ?_
  intro a _
  by_cases hp : p a = true
  · simp [hp, h a hp]
  · simp only [Bool.not_eq_true] at hp
    simp [hp]

-- ------------------------------------------------------------------
-- Trajectory loop characterization
-- ------------------------------------------------------------------

theorem verlaufAux_eq (l : List Eintrag) : ∀ (c s : ℚ),
    (∀ k, k < l.length → c + eintragSumE (l.take (k + 1)) ≠ 0) →
    verlaufAux c s l = some ((List.range l.length).map
      (fun k => pyRound2 ((s + eintragSumW (l.take (k + 1)))
        / (c + eintragSumE (l.take (k + 1)))))) := by
  induction l with
  | nil => intro c s _; simp [verlaufAux]
  | cons e t ih =>
    intro c s h
    have h0 : c + (e.ects : ℚ) ≠ 0 := by
      have := h 0 (by simp)
      simpa [eintragSumE] using this
    have h1 : ∀ k, k < t.length → (c + (e.ects : ℚ)) + eintragSumE (t.take (k + 1)) ≠ 0 := by
      intro k hk
      have hh := h (k + 1) (by simpa using Nat.succ_lt_succ hk)
      rw [List.take_succ_cons, eintragSumE_cons] at hh
      rwa [add_assoc]
    simp only [verlaufAux]
    rw [if_neg h0, ih (c + (e.ects : ℚ)) (s + e.note * (e.ects : ℚ)) h1]
    simp only [List.length_cons, List.range_succ_eq_map, List.map_cons, List.map_map]
    refine congrArg some ?_
    rw [List.cons.injEq]
    constructor
    · simp [eintragSumE, eintragSumW]
    · rw [List.map_eq_map_iff]
      intro k hk
      simp only [Function.comp_apply, List.take_succ_cons, eintragSumE_cons, eintragSumW_cons,
        Nat.succ_eq_add_one]
      ring_nf

theorem mem_abgeschlossene_ects_pos {l : List Modul} (h : ∀ m ∈ l, 0 < m.ects) :
    ∀ e ∈ abgeschlosseneEintraege l, 0 < e.ects := by
  intro e he
  unfold abgeschlosseneEintraege at he
  rcases List.mem_filterMap.mp he with ⟨m, hm, hmap⟩
  cases hpl : m.pruefungsleistung with
  | none => rw [hpl] at hmap; simp at hmap
  | some pl =>
    rw [hpl] at hmap
    simp only [Option.map_some', Option.some.injEq] at hmap
    rw [← hmap]
    exact h m hm

theorem eintragSumE_pos {l : List Eintrag} (h : ∀ e ∈ l, 0 < e.ects) (hne : l ≠ []) :
    0 < eintragSumE l := by
  unfold eintragSumE
  apply List.sum_pos
  · intro x hx
    rcases List.mem_map.mp hx with ⟨e, he, rfl⟩
    exact_mod_cast h e he
  · simpa using hne

theorem verlauf_eq_spec (sg : Studiengang) (h : ∀ m ∈ sg.module_list, 0 < m.ects) :
    sg.berechneNotendurchschnittVerlauf
      = some (specCumAvgs (sortiereEintraege (abgeschlosseneEintraege sg.module_list))) := by
  unfold Studiengang.berechneNotendurchschnittVerlauf
  by_cases hemp : (abgeschlosseneEintraege sg.module_list).isEmpty = true
  · have hnil : abgeschlosseneEintraege sg.module_list = [] := by
      simpa using hemp
    simp [hemp, hnil, sortiereEintraege, sortByKey, specCumAvgs]
  · have hposE : ∀ e ∈ abgeschlosseneEintraege sg.module_list, 0 < e.ects :=
      mem_abgeschlossene_ects_pos h
    have hposS : ∀ e ∈ sortiereEintraege (abgeschlosseneEintraege sg.module_list), 0 < e.ects :=
      fun e he => hposE e ((sortByKey_perm _ _).mem_iff.mp he)
    have hcond : ∀ k, k < (sortiereEintraege (abgeschlosseneEintraege sg.module_list)).length →
        (0 : ℚ) + eintragSumE ((sortiereEintraege
          (abgeschlosseneEintraege sg.module_list)).take (k + 1)) ≠ 0 := by
      intro k hk
      rw [zero_add]
      refine ne_of_gt (eintragSumE_pos ?_ ?_)
      · exact fun e he => hposS e (List.take_subset _ _ he)
      · refine List.ne_nil_of_length_pos ?_
        rw [List.length_take]
        omega
    rw [if_neg hemp, verlaufAux_eq _ 0 0 hcond]
    simp [specCumAvgs]

theorem specCumAvgs_length (l : List Eintrag) : (specCumAvgs l).length = l.length := by
  simp [specCumAvgs]

theorem abgeschlossene_length (l : List Modul) :
    (abgeschlosseneEintraege l).length
      = (l.filter (fun m => m.pruefungsleistung.isSome)).length := by
  induction l with
  | nil => rfl
  | cons m t ih =>
    cases hm : m.pruefungsleistung with
    | none =>
      simp only [abgeschlosseneEintraege, List.filterMap_cons, List.filter_cons, hm,
        Option.map_none', Option.isSome_none, Bool.false_eq_true, if_false]
      exact ih
    | some pl =>
      simp only [abgeschlosseneEintraege, List.filterMap_cons, List.filter_cons, hm,
        Option.map_some', Option.isSome_some, if_true, List.length_cons]
      exact congrArg Nat.succ ih

theorem map_range_getLast {β : Type*} (f : ℕ → β) (n : ℕ) (h : n ≠ 0) :
    ((List.range n).map f).getLast? = some (f (n - 1)) := by
  cases n with
  | zero => exact absurd rfl h
  | succ k =>
    rw [List.range_succ, List.map_append]
    simp

theorem verlauf_getLast (sg : Studiengang) (h : ∀ m ∈ sg.module_list, 0 < m.ects) :
    (specCumAvgs (sortiereEintraege (abgeschlosseneEintraege sg.module_list))).getLast?
      = sg.berechneNotendurchschnitt := by
  have hperm : (sortiereEintraege (abgeschlosseneEintraege sg.module_list)).Perm
      (abgeschlosseneEintraege sg.module_list) := sortByKey_perm _ _
  have hsE : eintragSumE (sortiereEintraege (abgeschlosseneEintraege sg.module_list))
      = eintragSumE (abgeschlosseneEintraege sg.module_list) := (hperm.map _).sum_eq
  have hsW : eintragSumW (sortiereEintraege (abgeschlosseneEintraege sg.module_list))
      = eintragSumW (abgeschlosseneEintraege sg.module_list) := (hperm.map _).sum_eq
  rcases eq_or_ne (abgeschlosseneEintraege sg.module_list) [] with hnil | hne
  · rw [nd_eq, hnil]
    simp [sortiereEintraege, sortByKey, specCumAvgs, eintragSumE]
  · have hSne : sortiereEintraege (abgeschlosseneEintraege sg.module_list) ≠ [] := by
      intro hs
      rw [hs] at hperm
      exact hne hperm.symm.eq_nil
    have hlen : (sortiereEintraege (abgeschlosseneEintraege sg.module_list)).length ≠ 0 :=
      fun h0 => hSne (List.eq_nil_of_length_eq_zero h0)
    have hlen1 : (sortiereEintraege (abgeschlosseneEintraege sg.module_list)).length - 1 + 1
        = (sortiereEintraege (abgeschlosseneEintraege sg.module_list)).length := by omega
    have hpos : 0 < eintragSumE (abgeschlosseneEintraege sg.module_list) :=
      eintragSumE_pos (mem_abgeschlossene_ects_pos h) hne
    unfold specCumAvgs
    rw [map_range_getLast _ _ hlen, hlen1, List.take_length, nd_eq,
      if_neg (ne_of_gt hpos), hsE, hsW]

theorem weightedSum_le (l : List Eintrag) (B : ℚ) (hB : ∀ e ∈ l, e.note ≤ B)
    (hw : ∀ e ∈ l, (0 : ℚ) ≤ (e.ects : ℚ)) : eintragSumW l ≤ B * eintragSumE l := by
  induction l with
  | nil => simp [eintragSumW, eintragSumE]
  | cons e t ih =>
    rw [eintragSumW_cons, eintragSumE_cons, mul_add]
    have h1 : e.note * (e.ects : ℚ) ≤ B * (e.ects : ℚ) :=
      mul_le_mul_of_nonneg_right (hB e (List.mem_cons_self e t)) (hw e (List.mem_cons_self e t))
    have h2 := ih (fun x hx => hB x (List.mem_cons_of_mem _ hx))
      (fun x hx => hw x (List.mem_cons_of_mem _ hx))
    linarith

theorem le_weightedSum (l : List Eintrag) (A : ℚ) (hA : ∀ e ∈ l, A ≤ e.note)
    (hw : ∀ e ∈ l, (0 : ℚ) ≤ (e.ects : ℚ)) : A * eintragSumE l ≤ eintragSumW l := by
  induction l with
  | nil => simp [eintragSumW, eintragSumE]
  | cons e t ih =>
    rw [eintragSumW_cons, eintragSumE_cons, mul_add]
    have h1 : A * (e.ects : ℚ) ≤ e.note * (e.ects : ℚ) :=
      mul_le_mul_of_nonneg_right (hA e (List.mem_cons_self e t)) (hw e (List.mem_cons_self e t))
    have h2 := ih (fun x hx => hA x (List.mem_cons_of_mem _ hx))
      (fun x hx => hw x (List.mem_cons_of_mem _ hx))
    linarith

theorem exists_note_max (l : List Eintrag) (hne : l ≠ []) :
    ∃ b ∈ l, ∀ e ∈ l, e.note ≤ b.note := by
  induction l with
  | nil => exact absurd rfl hne
  | cons e t ih =>
    rcases eq_or_ne t [] with rfl | hte
    · exact ⟨e, List.mem_cons_self e [], by simp⟩
    · obtain ⟨b, hb, hmax⟩ := ih hte
      rcases le_total e.note b.note with hle | hle
      · refine ⟨b, List.mem_cons_of_mem _ hb, ?_⟩
        intro x hx
        rcases List.mem_cons.mp hx with rfl | hx
        · exact hle
        · exact hmax x hx
      · refine ⟨e, List.mem_cons_self e t, ?_⟩
        intro x hx
        rcases List.mem_cons.mp hx with rfl | hx
        · exact le_refl _
        · exact le_trans (hmax x hx) hle

theorem exists_note_min (l : List Eintrag) (hne : l ≠ []) :
    ∃ a ∈ l, ∀ e ∈ l, a.note ≤ e.note := by
  induction l with
  | nil => exact absurd rfl hne
  | cons e t ih =>
    rcases eq_or_ne t [] with rfl | hte
    · exact ⟨e, List.mem_cons_self e [], by simp⟩
    · obtain ⟨a, ha, hmin⟩ := ih hte
      rcases le_total a.note e.note with hle | hle
      · refine ⟨a, List.mem_cons_of_mem _ ha, ?_⟩
        intro x hx
        rcases List.mem_cons.mp hx with rfl | hx
        · exact hle
        · exact hmin x hx
      · refine ⟨e, List.mem_cons_self e t, ?_⟩
        intro x hx
        rcases List.mem_cons.mp hx with rfl | hx
        · exact le_refl _
        · exact le_trans hle (hmin x hx)

-- ------------------------------------------------------------------
-- Claim theorems
-- ------------------------------------------------------------------

theorem richtwert_eq (sg : Studiengang) (datum : PyDate) :
    sg.berechneTageProModulRichtwert datum
      = if sg.ects_gesamt - sg.berechneErreichteECTS ≤ 0 then 0
        else if (sg.regelstudienzeit : ℚ) * ((365.25 : ℚ) / 2)
            - (sg.regelstudienzeit : ℚ) * ((42 : ℚ) / 2)
            - (dateSub datum sg.startdatum : ℚ) ≤ 0 then 999
        else pyRound2 (((sg.regelstudienzeit : ℚ) * ((365.25 : ℚ) / 2)
            - (sg.regelstudienzeit : ℚ) * ((42 : ℚ) / 2)
            - (dateSub datum sg.startdatum : ℚ))
          / ((sg.ects_gesamt - sg.berechneErreichteECTS : ℤ) : ℚ) * 5) := rfl

/-- C1: the pacing calculator returns exactly `0.0` when the outstanding
credits are non-positive; otherwise exactly `999.0` when the remaining days
are non-positive; otherwise `round((remainingDays / outstandingCredits) * 5, 2)`
— three mutually exclusive, jointly exhaustive branches. -/
theorem C1_richtwert_branches (sg : Studiengang) (datum : PyDate) :
    (outstandingCredits sg ≤ 0 ∧ sg.berechneTageProModulRichtwert datum = 0)
    ∨ (0 < outstandingCredits sg ∧ remainingDays sg datum ≤ 0
        ∧ sg.berechneTageProModulRichtwert datum = 999)
    ∨ (0 < outstandingCredits sg ∧ 0 < remainingDays sg datum
        ∧ sg.berechneTageProModulRichtwert datum
          = pyRound2 (remainingDays sg datum / (outstandingCredits sg : ℚ) * 5)) := by
  rw [richtwert_eq]
  unfold outstandingCredits remainingDays
  by_cases h1 : sg.ects_gesamt - sg.berechneErreichteECTS ≤ 0
  · exact Or.inl ⟨h1, by rw [if_pos h1]⟩
  · push_neg at h1
    by_cases h2 : (sg.regelstudienzeit : ℚ) * ((365.25 : ℚ) / 2)
        - (sg.regelstudienzeit : ℚ) * ((42 : ℚ) / 2)
        - (dateSub datum sg.startdatum : ℚ) ≤ 0
    · exact Or.inr (Or.inl ⟨h1, h2, by rw [if_neg (not_le.mpr h1), if_pos h2]⟩)
    · push_neg at h2
      exact Or.inr (Or.inr ⟨h1, h2, by rw [if_neg (not_le.mpr h1), if_neg (not_le.mpr h2)]⟩)

/-- C5: earned credits equal the sum of credits of exactly the completed
modules, invariant under permutation of the module list, and `0` for an
empty or fully incomplete list. -/
theorem C5_erreichte_ects (sg : Studiengang) :
    sg.berechneErreichteECTS
        = ((sg.module_list.filter (fun m => m.pruefungsleistung.isSome)).map Modul.ects).sum
    ∧ (∀ sg' : Studiengang, sg.module_list.Perm sg'.module_list →
        sg.berechneErreichteECTS = sg'.berechneErreichteECTS)
    ∧ (sg.module_list = [] → sg.berechneErreichteECTS = 0)
    ∧ ((∀ m ∈ sg.module_list, m.pruefungsleistung = none) →
        sg.berechneErreichteECTS = 0) := by
  refine ⟨erreichte_eq_sum sg, ?_, ?_, ?_⟩
  · intro sg' hperm
    rw [erreichte_eq_sum, erreichte_eq_sum]
    exact ((hperm.filter _).map _).sum_eq
  · intro h
    rw [erreichte_eq_sum, h]
    rfl
  · intro h
    rw [erreichte_eq_sum]
    have hnil : sg.module_list.filter (fun m => m.pruefungsleistung.isSome) = [] := by
      rw [List.filter_eq_nil_iff]
      intro m hm
      simp [h m hm]
    rw [hnil]
    rfl

/-- Witness for C5 at the concrete program `sgW` and its permutation. -/
theorem C5_witness :
    sgW.berechneErreichteECTS = sgWperm.berechneErreichteECTS
    ∧ sgW.berechneErreichteECTS = 15 :=
  ⟨(C5_erreichte_ects sgW).2.1 sgWperm (by decide), by decide⟩

/-- C9: the forecast's grade goal is met iff the average is defined and at
most 1.9; the pace goal compares the consumed progress fields, which for the
assembled progress means earned credits ≥ expected credits; planned years
are `plannedSemesters / 2`. -/
theorem C9_prognose (sg : Studiengang) (progress : ProgressDaten) (nd : Option ℚ) :
    ((berechne_prognose_daten sg progress nd).noten_ziel_erreicht = true
        ↔ ∃ v, nd = some v ∧ v ≤ (1.9 : ℚ))
    ∧ ((berechne_prognose_daten sg progress nd).zeit_ziel_erreicht = true
        ↔ progress.soll_ects ≤ progress.ist_ects)
    ∧ (berechne_prognose_daten sg progress nd).regelstudienzeit_jahre
        = (sg.regelstudienzeit : ℚ) / 2
    ∧ (∀ heute : PyDate,
        ((berechne_prognose_daten sg (berechne_progress_daten sg heute) nd).zeit_ziel_erreicht
            = true
          ↔ (berechne_progress_daten sg heute).soll_ects ≤ sg.berechneErreichteECTS)) := by
  refine ⟨?_, by simp [berechne_prognose_daten], rfl, ?_⟩
  · cases nd <;> simp [berechne_prognose_daten]
  · intro heute
    simp only [berechne_prognose_daten, decide_eq_true_eq]
    exact Iff.rfl

theorem zeitaufwand_daten_eq (l : List Modul) :
    l.filterMap (fun m =>
      match m.pruefungsleistung with
      | none => none
      | some pl =>
        match m.berechneBenoetigteTage with
        | none => none
        | some tage => some (m.name, tage, pl.datum))
      = (l.filter (fun m => m.berechneBenoetigteTage.isSome)).map
          (fun m => (m.name, tageOrDefault m, plDatumOrDefault m)) := by
  induction l with
  | nil => rfl
  | cons m t ih =>
    rw [List.filterMap_cons, List.filter_cons]
    cases hpl : m.pruefungsleistung with
    | none =>
      have ht : m.berechneBenoetigteTage = none := by
        unfold Modul.berechneBenoetigteTage
        rw [hpl]
        cases m.startdatum <;> rfl
      simp [hpl, ht, ih]
    | some pl =>
      cases ht : m.berechneBenoetigteTage with
      | none => simp [hpl, ht, ih]
      | some tage =>
        simp [hpl, ht, ih, tageOrDefault, plDatumOrDefault]

/-- C7: a module's days-required is defined exactly when a start date and an
exam result exist with the exam date not before the start, and then equals
the day count between them; the time-effort history is the stable
chronological sort of exactly the modules with a defined days-required,
projected to (name, days). -/
theorem C7_benoetigte_tage :
    (∀ (m : Modul) (t : ℤ), m.berechneBenoetigteTage = some t
        ↔ ∃ sd pl, m.startdatum = some sd ∧ m.pruefungsleistung = some pl
            ∧ toOrdinal sd ≤ toOrdinal pl.datum ∧ t = dateSub pl.datum sd)
    ∧ (∀ sg : Studiengang,
        ermittle_zeitaufwand_history sg
          = (sortByKey (fun x => toOrdinal x.2.2) (zeitaufwandEintraege sg)).map
              (fun x => (x.1, x.2.1))
        ∧ List.Pairwise (fun x y => toOrdinal x.2.2 ≤ toOrdinal y.2.2)
            (sortByKey (fun x => toOrdinal x.2.2) (zeitaufwandEintraege sg))
        ∧ (sortByKey (fun x => toOrdinal x.2.2) (zeitaufwandEintraege sg)).Perm
            (zeitaufwandEintraege sg)
        ∧ (∀ n : ℕ, (sortByKey (fun x => toOrdinal x.2.2) (zeitaufwandEintraege sg)).filter
              (fun x => toOrdinal x.2.2 == n)
            = (zeitaufwandEintraege sg).filter (fun x => toOrdinal x.2.2 == n))) := by
  constructor
  · intro m t
    constructor
    · intro h
      unfold Modul.berechneBenoetigteTage at h
      cases hpl : m.pruefungsleistung with
      | none => rw [hpl] at h; exact absurd h (by simp)
      | some pl =>
        cases hsd : m.startdatum with
        | none => rw [hpl, hsd] at h; exact absurd h (by simp)
        | some sd =>
          rw [hpl, hsd] at h
          dsimp only at h
          by_cases hlt : toOrdinal pl.datum < toOrdinal sd
          · rw [if_pos hlt] at h
            exact absurd h (by simp)
          · rw [if_neg hlt] at h
            exact ⟨sd, pl, rfl, rfl, not_lt.mp hlt, (Option.some.inj h).symm⟩
    · rintro ⟨sd, pl, hsd, hpl, hle, rfl⟩
      unfold Modul.berechneBenoetigteTage
      rw [hpl, hsd]
      dsimp only
      rw [if_neg (not_lt.mpr hle)]
  · intro sg
    refine ⟨?_, sortByKey_pairwise _ _, sortByKey_perm _ _, fun n => sortByKey_filter _ _ n⟩
    unfold ermittle_zeitaufwand_history zeitaufwandEintraege
    rw [zeitaufwand_daten_eq]

theorem tage_text_ne_infty (i : ℤ) : toString i ++ " Tage" ≠ "∞" := by
  intro hcontra
  have hl := congrArg String.length hcontra
  rw [String.length_append] at hl
  have h5 : (" Tage" : String).length = 5 := rfl
  have h1 : ("∞" : String).length = 1 := rfl
  omega

/-- C6 counterexample: a program whose pacing value 1293.0 is computed in
the normal branch (credits outstanding, time remaining) is rendered "∞". -/
theorem C6_counterexample :
    (erzeuge_dashboard_daten sgCsechs dStart).tage_pro_modul_text = "∞"
    ∧ (erzeuge_dashboard_daten sgCsechs dStart).tage_pro_modul_richtwert = 1293
    ∧ (1293 : ℚ) ≠ 999
    ∧ 0 < outstandingCredits sgCsechs
    ∧ 0 < remainingDays sgCsechs dStart := by
  have hr : sgCsechs.berechneTageProModulRichtwert dStart = 1293 := by
    norm_num [Studiengang.berechneTageProModulRichtwert, sgCsechs,
      Studiengang.berechneErreichteECTS, dateSub, pyRound2, rhe]
  refine ⟨?_, hr, by norm_num, by decide, ?_⟩
  · show tageProModulText (sgCsechs.berechneTageProModulRichtwert dStart) = "∞"
    rw [hr]
    norm_num [tageProModulText]
  · norm_num [remainingDays, sgCsechs, dateSub]

/-- C6 amended: the snapshot text is "∞" exactly when the pacing value is
≥ 999.0 (sentinel included, but also any normal-branch value ≥ 999); values
below 999 render as the rounded integer plus " Tage"; the sentinel branch
(credits outstanding, no time left) always renders "∞". -/
theorem C6_amended (sg : Studiengang) (heute : PyDate) :
    ((erzeuge_dashboard_daten sg heute).tage_pro_modul_text = "∞"
        ↔ (999 : ℚ) ≤ (erzeuge_dashboard_daten sg heute).tage_pro_modul_richtwert)
    ∧ ((erzeuge_dashboard_daten sg heute).tage_pro_modul_richtwert < 999
        → (erzeuge_dashboard_daten sg heute).tage_pro_modul_text
            = toString (rhe ((erzeuge_dashboard_daten sg heute).tage_pro_modul_richtwert))
              ++ " Tage")
    ∧ (0 < outstandingCredits sg → remainingDays sg heute ≤ 0
        → (erzeuge_dashboard_daten sg heute).tage_pro_modul_text = "∞") := by
  have htext : (erzeuge_dashboard_daten sg heute).tage_pro_modul_text
      = tageProModulText (sg.berechneTageProModulRichtwert heute) := rfl
  have hrw : (erzeuge_dashboard_daten sg heute).tage_pro_modul_richtwert
      = sg.berechneTageProModulRichtwert heute := rfl
  refine ⟨?_, ?_, ?_⟩
  · rw [htext, hrw]
    unfold tageProModulText
    constructor
    · intro h
      by_contra hlt
      rw [if_neg hlt] at h
      exact tage_text_ne_infty _ h
    · intro h
      rw [if_pos h]
  · intro h
    rw [hrw] at h
    rw [htext, hrw]
    unfold tageProModulText
    rw [if_neg (not_le.mpr h)]
  · intro hout hrem
    rw [htext]
    have h1 : ¬ (sg.ects_gesamt - sg.berechneErreichteECTS ≤ 0) := not_le.mpr hout
    have h2 : (sg.regelstudienzeit : ℚ) * ((365.25 : ℚ) / 2)
        - (sg.regelstudienzeit : ℚ) * ((42 : ℚ) / 2)
        - (dateSub heute sg.startdatum : ℚ) ≤ 0 := hrem
    have h999 : sg.berechneTageProModulRichtwert heute = 999 := by
      rw [richtwert_eq, if_neg h1, if_pos h2]
    rw [h999]
    unfold tageProModulText
    rw [if_pos (le_refl _)]

/-- Witness for C6 amended at `sgW` (pacing value below 999, rendered with
a unit label) and at the sentinel program. -/
theorem C6_witness :
    (erzeuge_dashboard_daten sgW dStart).tage_pro_modul_text
      = toString (rhe ((erzeuge_dashboard_daten sgW dStart).tage_pro_modul_richtwert))
        ++ " Tage" := by
  refine (C6_amended sgW dStart).2.1 ?_
  have hr : sgW.berechneTageProModulRichtwert dStart = 1959/50 := by
    norm_num [Studiengang.berechneTageProModulRichtwert, sgW, modulW, modulWzwei, modulWdrei,
      Studiengang.berechneErreichteECTS, dateSub, pyRound2, rhe]
  show sgW.berechneTageProModulRichtwert dStart < 999
  rw [hr]
  norm_num

/-- C10: the exam-recording operation returns `None` and leaves the state
unchanged exactly when the grade is outside [1.0, 4.0], the module id does
not exist, or the module already has a recorded result; otherwise it appends
exactly one new row and returns its fresh id; per module the row count never
exceeds `max(count, 1)`, so a second result can never accumulate. -/
theorem C10_erfasse (s : DBState) (modul_id : ℤ) (note : ℚ) (datum : PyDate) :
    ((erfasse_pruefungsleistung s modul_id note datum).1 = none
        ↔ (note < 1 ∨ 4 < note ∨ modul_id ∉ s.module_ids
            ∨ ∃ p ∈ s.pruefungen, p.modul_id = modul_id))
    ∧ ((erfasse_pruefungsleistung s modul_id note datum).1 = none
        → (erfasse_pruefungsleistung s modul_id note datum).2 = s)
    ∧ (∀ i : ℤ, (erfasse_pruefungsleistung s modul_id note datum).1 = some i
        → i = s.next_id
          ∧ (erfasse_pruefungsleistung s modul_id note datum).2.pruefungen
              = s.pruefungen ++ [⟨s.next_id, modul_id, note, datum⟩])
    ∧ anzahlPruefungen (erfasse_pruefungsleistung s modul_id note datum).2 modul_id
        ≤ max (anzahlPruefungen s modul_id) 1
    ∧ (∀ mid : ℤ, mid ≠ modul_id →
        anzahlPruefungen (erfasse_pruefungsleistung s modul_id note datum).2 mid
          = anzahlPruefungen s mid) := by
  unfold erfasse_pruefungsleistung create_pruefungsleistung
  by_cases h1 : note < 1 ∨ 4 < note
  · rw [if_pos h1]
    refine ⟨?_, fun _ => rfl, by simp, le_max_left _ _, fun _ _ => rfl⟩
    simp only [true_iff]
    exact h1.imp id Or.inl
  · rw [if_neg h1]
    by_cases h2 : modul_id ∉ s.module_ids
    · rw [if_pos h2]
      push_neg at h1
      refine ⟨?_, fun _ => rfl, by simp, le_max_left _ _, fun _ _ => rfl⟩
      simp only [true_iff]
      exact Or.inr (Or.inr (Or.inl h2))
    · rw [if_neg h2]
      push_neg at h1 h2
      by_cases h3 : get_all_pruefungsleistungen s modul_id ≠ []
      · rw [if_pos h3]
        have hex : ∃ p ∈ s.pruefungen, p.modul_id = modul_id := by
          rcases List.exists_mem_of_ne_nil _ h3 with ⟨p, hp⟩
          unfold get_all_pruefungsleistungen at hp
          rcases List.mem_filter.mp hp with ⟨hmem, hpid⟩
          exact ⟨p, hmem, by simpa using hpid⟩
        refine ⟨?_, fun _ => rfl, by simp, le_max_left _ _, fun _ _ => rfl⟩
        simp only [true_iff]
        exact Or.inr (Or.inr (Or.inr hex))
      · rw [if_neg h3]
        rw [not_not] at h3
        have hnone : ∀ p ∈ s.pruefungen, ¬ p.modul_id = modul_id := by
          intro p hp hpid
          have hmem : p ∈ get_all_pruefungsleistungen s modul_id :=
            List.mem_filter.mpr ⟨hp, by simpa using hpid⟩
          rw [h3] at hmem
          exact absurd hmem (List.not_mem_nil p)
        refine ⟨?_, by simp, ?_, ?_, ?_⟩
        · refine iff_of_false (by simp) ?_
          rintro (hc | hc | hc | ⟨p, hp, hpid⟩)
          · exact absurd hc (not_lt.mpr h1.1)
          · exact absurd hc (not_lt.mpr h1.2)
          · exact hc h2
          · exact hnone p hp hpid
        · intro i hi
          exact ⟨(Option.some.inj hi).symm, rfl⟩
        · unfold anzahlPruefungen get_all_pruefungsleistungen
          unfold get_all_pruefungsleistungen at h3
          rw [List.filter_append, h3]
          simp
        · intro mid hmid
          unfold anzahlPruefungen get_all_pruefungsleistungen
          rw [List.filter_append]
          simp [Ne.symm hmid]

/-- Witness for C10 at the concrete database state `dbW`: recording a valid
grade on module 1 succeeds with the fresh id 8, and module 2 (which already
has a result) is rejected. -/
theorem C10_witness :
    ((erfasse_pruefungsleistung dbW 1 (3/2) dOkt).1 = some 8
      → 8 = dbW.next_id
        ∧ (erfasse_pruefungsleistung dbW 1 (3/2) dOkt).2.pruefungen
            = dbW.pruefungen ++ [⟨dbW.next_id, 1, 3/2, dOkt⟩])
    ∧ ((erfasse_pruefungsleistung dbW 2 (3/2) dOkt).1 = none
        ↔ ((3:ℚ)/2 < 1 ∨ 4 < (3:ℚ)/2 ∨ (2:ℤ) ∉ dbW.module_ids
            ∨ ∃ p ∈ dbW.pruefungen, p.modul_id = 2)) :=
  ⟨(C10_erfasse dbW 1 (3/2) dOkt).2.2.1 8, (C10_erfasse dbW 2 (3/2) dOkt).1⟩

/-- C2 counterexample: program `sgA` has exactly one completed module yet an
undefined average (its credits are zero), and program `sgB`'s defined average
1.0 lies strictly below every grade (the only grade is 1.002). -/
theorem C2_counterexample :
    ((sgA.module_list.filter (fun m => m.pruefungsleistung.isSome)).length = 1
      ∧ sgA.berechneNotendurchschnitt = none)
    ∧ (sgB.berechneNotendurchschnitt = some 1
      ∧ ∀ e ∈ abgeschlosseneEintraege sgB.module_list, 1 < e.note) := by
  refine ⟨⟨by decide, ?_⟩, ?_, ?_⟩
  · norm_num [Studiengang.berechneNotendurchschnitt, sgA, modulA, notenStep]
  · norm_num [Studiengang.berechneNotendurchschnitt, sgB, modulB, notenStep, pyRound2, rhe]
  · intro e he
    simp only [abgeschlosseneEintraege, sgB, modulB, List.filterMap_cons, List.filterMap_nil,
      Option.map_some'] at he
    rcases List.mem_singleton.mp he with rfl
    norm_num

theorem mem_abgeschlossene_ects_nonneg {l : List Modul} (h : ∀ m ∈ l, (0 : ℤ) ≤ m.ects) :
    ∀ e ∈ abgeschlosseneEintraege l, (0 : ℚ) ≤ (e.ects : ℚ) := by
  intro e he
  unfold abgeschlosseneEintraege at he
  rcases List.mem_filterMap.mp he with ⟨m, hm, hmap⟩
  cases hpl : m.pruefungsleistung with
  | none => rw [hpl] at hmap; simp at hmap
  | some pl =>
    rw [hpl] at hmap
    simp only [Option.map_some', Option.some.injEq] at hmap
    rw [← hmap]
    exact_mod_cast h m hm

theorem eintragSumE_nonneg {l : List Eintrag} (h : ∀ e ∈ l, (0 : ℚ) ≤ (e.ects : ℚ)) :
    0 ≤ eintragSumE l := by
  unfold eintragSumE
  apply List.sum_nonneg
  intro x hx
  rcases List.mem_map.mp hx with ⟨e, he, rfl⟩
  exact h e he

/-- C2 amended: the weighted average is undefined iff the completed modules'
credit sum is zero (not iff no module is completed); for programs with
non-negative credits a defined average lies within
[min(grades) − 0.005, max(grades) + 0.005] — the 2-decimal rounding can move
it up to half a cent past the raw bounds. -/
theorem C2_amended (sg : Studiengang) (h : ∀ m ∈ sg.module_list, (0 : ℤ) ≤ m.ects) :
    (sg.berechneNotendurchschnitt = none
      ↔ eintragSumE (abgeschlosseneEintraege sg.module_list) = 0)
    ∧ (∀ v : ℚ, sg.berechneNotendurchschnitt = some v →
        ∃ a ∈ abgeschlosseneEintraege sg.module_list,
        ∃ b ∈ abgeschlosseneEintraege sg.module_list,
          (∀ e ∈ abgeschlosseneEintraege sg.module_list, a.note ≤ e.note ∧ e.note ≤ b.note)
          ∧ a.note - 1/200 ≤ v ∧ v ≤ b.note + 1/200) := by
  have hw : ∀ e ∈ abgeschlosseneEintraege sg.module_list, (0 : ℚ) ≤ (e.ects : ℚ) :=
    mem_abgeschlossene_ects_nonneg h
  constructor
  · rw [nd_eq]
    split_ifs with hc
    · simp [hc]
    · simp [hc]
  · intro v hv
    rw [nd_eq] at hv
    by_cases hc : eintragSumE (abgeschlosseneEintraege sg.module_list) = 0
    · rw [if_pos hc] at hv
      exact absurd hv (by simp)
    · rw [if_neg hc] at hv
      have hv' : v = pyRound2 (eintragSumW (abgeschlosseneEintraege sg.module_list)
          / eintragSumE (abgeschlosseneEintraege sg.module_list)) :=
        (Option.some.inj hv).symm
      have hEpos : 0 < eintragSumE (abgeschlosseneEintraege sg.module_list) :=
        lt_of_le_of_ne (eintragSumE_nonneg hw) (Ne.symm hc)
      have hne : abgeschlosseneEintraege sg.module_list ≠ [] := by
        intro hnil
        rw [hnil] at hc
        exact hc rfl
      obtain ⟨a, ha, hmin⟩ := exists_note_min _ hne
      obtain ⟨b, hb, hmax⟩ := exists_note_max _ hne
      have hWle := weightedSum_le (abgeschlosseneEintraege sg.module_list) b.note hmax hw
      have hleW := le_weightedSum (abgeschlosseneEintraege sg.module_list) a.note hmin hw
      have havg_le : eintragSumW (abgeschlosseneEintraege sg.module_list)
          / eintragSumE (abgeschlosseneEintraege sg.module_list) ≤ b.note :=
        (div_le_iff₀ hEpos).mpr (by linarith)
      have hle_avg : a.note ≤ eintragSumW (abgeschlosseneEintraege sg.module_list)
          / eintragSumE (abgeschlosseneEintraege sg.module_list) :=
        (le_div_iff₀ hEpos).mpr (by linarith)
      have h1 := pyRound2_le (eintragSumW (abgeschlosseneEintraege sg.module_list)
        / eintragSumE (abgeschlosseneEintraege sg.module_list))
      have h2 := le_pyRound2 (eintragSumW (abgeschlosseneEintraege sg.module_list)
        / eintragSumE (abgeschlosseneEintraege sg.module_list))
      refine ⟨a, ha, b, hb, fun e he => ⟨hmin e he, hmax e he⟩, ?_, ?_⟩
      · rw [hv']; linarith
      · rw [hv']; linarith

/-- Witness for C2 amended at the concrete program `sgW`. -/
theorem C2_witness :
    (sgW.berechneNotendurchschnitt = none
      ↔ eintragSumE (abgeschlosseneEintraege sgW.module_list) = 0)
    ∧ (∀ v : ℚ, sgW.berechneNotendurchschnitt = some v →
        ∃ a ∈ abgeschlosseneEintraege sgW.module_list,
        ∃ b ∈ abgeschlosseneEintraege sgW.module_list,
          (∀ e ∈ abgeschlosseneEintraege sgW.module_list, a.note ≤ e.note ∧ e.note ≤ b.note)
          ∧ a.note - 1/200 ≤ v ∧ v ≤ b.note + 1/200) :=
  C2_amended sgW (by decide)

/-- C8 counterexample: `sgA` has a completed module (with zero credits), and
the trajectory calculator hits the division by zero (modelled as `none`,
a `ZeroDivisionError` at runtime) instead of returning a value. -/
theorem C8_counterexample :
    (∃ m ∈ sgA.module_list, m.pruefungsleistung.isSome = true ∧ m.ects = 0)
    ∧ sgA.berechneNotendurchschnittVerlauf = none := by
  refine ⟨by decide, ?_⟩
  norm_num [Studiengang.berechneNotendurchschnittVerlauf, sgA, modulA,
    abgeschlosseneEintraege, sortiereEintraege, sortByKey, insertByKey, verlaufAux]
  exact fun h => nomatch h

/-- C8 amended: over programs whose modules all carry positive credits every
calculator is total — in particular the trajectory returns a value — and the
empty module list yields the degenerate results (0 credits, undefined
average, empty trajectory). -/
theorem C8_amended (sg : Studiengang) (hpos : ∀ m ∈ sg.module_list, 0 < m.ects) :
    (sg.berechneNotendurchschnittVerlauf).isSome = true
    ∧ (sg.module_list = [] →
        sg.berechneErreichteECTS = 0
        ∧ sg.berechneNotendurchschnitt = none
        ∧ sg.berechneNotendurchschnittVerlauf = some []) := by
  refine ⟨?_, ?_⟩
  · rw [verlauf_eq_spec sg hpos]
    rfl
  · intro h
    refine ⟨?_, ?_, ?_⟩
    · rw [erreichte_eq_sum, h]
      rfl
    · rw [nd_eq, h]
      simp [abgeschlosseneEintraege, eintragSumE]
    · unfold Studiengang.berechneNotendurchschnittVerlauf
      rw [h]
      simp [abgeschlosseneEintraege]

/-- Witness for C8 amended at the concrete program `sgW`. -/
theorem C8_witness : (sgW.berechneNotendurchschnittVerlauf).isSome = true :=
  (C8_amended sgW (by decide)).1

/-- C3: over a structurally valid program (positive module credits) the
trajectory yields exactly one entry per completed module; its entries are the
cumulative weighted averages over the completed modules sorted stably by exam
date (ties keep insertion order); its last entry is the weighted average. -/
theorem C3_verlauf (sg : Studiengang) (hpos : ∀ m ∈ sg.module_list, 0 < m.ects) :
    ∃ L, sg.berechneNotendurchschnittVerlauf = some L
      ∧ L = specCumAvgs (sortiereEintraege (abgeschlosseneEintraege sg.module_list))
      ∧ L.length = (sg.module_list.filter (fun m => m.pruefungsleistung.isSome)).length
      ∧ (sortiereEintraege (abgeschlosseneEintraege sg.module_list)).Perm
          (abgeschlosseneEintraege sg.module_list)
      ∧ List.Pairwise (fun x y => toOrdinal x.abschlussdatum ≤ toOrdinal y.abschlussdatum)
          (sortiereEintraege (abgeschlosseneEintraege sg.module_list))
      ∧ (∀ d : PyDate, (sortiereEintraege (abgeschlosseneEintraege sg.module_list)).filter
            (fun e => e.abschlussdatum == d)
          = (abgeschlosseneEintraege sg.module_list).filter (fun e => e.abschlussdatum == d))
      ∧ L.getLast? = sg.berechneNotendurchschnitt := by
  refine ⟨_, verlauf_eq_spec sg hpos, rfl, ?_, sortByKey_perm _ _, sortByKey_pairwise _ _,
    ?_, verlauf_getLast sg hpos⟩
  · have hlen : (sortiereEintraege (abgeschlosseneEintraege sg.module_list)).length
        = (abgeschlosseneEintraege sg.module_list).length :=
      (sortByKey_perm _ _).length_eq
    rw [specCumAvgs_length, hlen, abgeschlossene_length]
  · intro d
    have hstr : ∀ x : Eintrag, (x.abschlussdatum == d) = true
        → (toOrdinal x.abschlussdatum == toOrdinal d) = true := by
      intro x hx
      have : x.abschlussdatum = d := by simpa using hx
      simp [this]
    calc (sortiereEintraege (abgeschlosseneEintraege sg.module_list)).filter
          (fun e => e.abschlussdatum == d)
        = ((sortiereEintraege (abgeschlosseneEintraege sg.module_list)).filter
            (fun e => toOrdinal e.abschlussdatum == toOrdinal d)).filter
              (fun e => e.abschlussdatum == d) :=
          (filter_of_filter_stronger _ _ _ hstr).symm
      _ = ((abgeschlosseneEintraege sg.module_list).filter
            (fun e => toOrdinal e.abschlussdatum == toOrdinal d)).filter
              (fun e => e.abschlussdatum == d) := by
          rw [sortiereEintraege, sortByKey_filter]
      _ = (abgeschlosseneEintraege sg.module_list).filter
            (fun e => e.abschlussdatum == d) :=
          filter_of_filter_stronger _ _ _ hstr

/-- Witness for C3 at the concrete program `sgW`. -/
theorem C3_witness :
    ∃ L, sgW.berechneNotendurchschnittVerlauf = some L
      ∧ L.length = (sgW.module_list.filter (fun m => m.pruefungsleistung.isSome)).length
      ∧ L.getLast? = sgW.berechneNotendurchschnitt := by
  obtain ⟨L, h1, _, h3, _, _, _, h7⟩ := C3_verlauf sgW (by decide)
  exact ⟨L, h1, h3, h7⟩

theorem rhe_zero : rhe 0 = 0 := by norm_num [rhe]

theorem toOrdinal_minDate (a b : PyDate) :
    toOrdinal (minDate a b) = min (toOrdinal a) (toOrdinal b) := by
  unfold minDate
  split_ifs with h
  · exact (min_eq_left h).symm
  · exact (min_eq_right (le_of_not_le h)).symm

theorem progress_soll_eq (sg : Studiengang) (heute : PyDate) :
    (berechne_progress_daten sg heute).soll_ects
      = runde_zu_modul_ects ((sg.ects_gesamt : ℚ) *
          min (if 0 < max (dateSub (berechne_enddatum sg.startdatum sg.regelstudienzeit)
                  sg.startdatum) 0
              then ((max (dateSub (minDate heute (berechne_enddatum sg.startdatum
                      sg.regelstudienzeit)) sg.startdatum) 0 : ℤ) : ℚ)
                / ((max (dateSub (berechne_enddatum sg.startdatum sg.regelstudienzeit)
                      sg.startdatum) 0 : ℤ) : ℚ)
              else 0) 1) sg.ects_gesamt := rfl

theorem runde_bounds (raw : ℚ) (g : ℤ) (hg : 0 < g) :
    0 ≤ runde_zu_modul_ects raw g ∧ runde_zu_modul_ects raw g ≤ g
    ∧ ((5 : ℤ) ∣ runde_zu_modul_ects raw g ∨ runde_zu_modul_ects raw g = g) := by
  unfold runde_zu_modul_ects
  rw [if_neg (not_le.mpr hg)]
  have h5 : (5 : ℤ) ∣ rhe (raw / 5) * 5 := ⟨rhe (raw / 5), mul_comm _ _⟩
  omega

theorem runde_zero (g : ℤ) : runde_zu_modul_ects 0 g = 0 := by
  unfold runde_zu_modul_ects
  split_ifs with h
  · rfl
  · rw [zero_div, rhe_zero, zero_mul]
    omega

theorem runde_full (g : ℤ) (hg : 0 < g) :
    runde_zu_modul_ects (g : ℚ) g = min (rhe ((g : ℚ) / 5) * 5) g := by
  unfold runde_zu_modul_ects
  rw [if_neg (not_le.mpr hg)]
  have hm : 0 ≤ rhe ((g : ℚ) / 5) := by
    apply rhe_nonneg
    positivity
  omega

/-- C4 amended: the expected-by-today credit count is always within
[0, totalCredits] and is a multiple of 5 OR equal to totalCredits (the final
clamp can cut a rounded value down to a non-multiple); it is 0 when today ≤
startDate; when today ≥ planned end date it equals
min(round5(totalCredits), totalCredits) if the planned span is positive,
else 0. -/
theorem C4_amended (sg : Studiengang) (heute : PyDate) (hg : 0 < sg.ects_gesamt) :
    (0 ≤ (berechne_progress_daten sg heute).soll_ects
      ∧ (berechne_progress_daten sg heute).soll_ects ≤ sg.ects_gesamt)
    ∧ ((5 : ℤ) ∣ (berechne_progress_daten sg heute).soll_ects
        ∨ (berechne_progress_daten sg heute).soll_ects = sg.ects_gesamt)
    ∧ (dateLe heute sg.startdatum → (berechne_progress_daten sg heute).soll_ects = 0)
    ∧ (dateLe (berechne_enddatum sg.startdatum sg.regelstudienzeit) heute →
        (berechne_progress_daten sg heute).soll_ects
          = if 0 < dateSub (berechne_enddatum sg.startdatum sg.regelstudienzeit) sg.startdatum
            then min (rhe ((sg.ects_gesamt : ℚ) / 5) * 5) sg.ects_gesamt
            else 0) := by
  rw [progress_soll_eq]
  obtain ⟨hb0, hb1, hb2⟩ := runde_bounds ((sg.ects_gesamt : ℚ) *
    min (if 0 < max (dateSub (berechne_enddatum sg.startdatum sg.regelstudienzeit)
            sg.startdatum) 0
        then ((max (dateSub (minDate heute (berechne_enddatum sg.startdatum
                sg.regelstudienzeit)) sg.startdatum) 0 : ℤ) : ℚ)
          / ((max (dateSub (berechne_enddatum sg.startdatum sg.regelstudienzeit)
                sg.startdatum) 0 : ℤ) : ℚ)
        else 0) 1) sg.ects_gesamt hg
  refine ⟨⟨hb0, hb1⟩, hb2, ?_, ?_⟩
  · intro hle
    unfold dateLe at hle
    have hmin := toOrdinal_minDate heute (berechne_enddatum sg.startdatum sg.regelstudienzeit)
    have hvt0 : max (dateSub (minDate heute (berechne_enddatum sg.startdatum
        sg.regelstudienzeit)) sg.startdatum) 0 = 0 := by
      unfold dateSub
      rw [hmin]
      omega
    rw [hvt0]
    have hraw : (sg.ects_gesamt : ℚ) *
        min (if 0 < max (dateSub (berechne_enddatum sg.startdatum sg.regelstudienzeit)
                sg.startdatum) 0
            then (((0 : ℤ) : ℚ))
              / ((max (dateSub (berechne_enddatum sg.startdatum sg.regelstudienzeit)
                    sg.startdatum) 0 : ℤ) : ℚ)
            else 0) 1 = 0 := by
      split_ifs <;> simp
    rw [hraw, runde_zero]
  · intro hle
    unfold dateLe at hle
    have hmin := toOrdinal_minDate heute (berechne_enddatum sg.startdatum sg.regelstudienzeit)
    have hvg : max (dateSub (minDate heute (berechne_enddatum sg.startdatum
          sg.regelstudienzeit)) sg.startdatum) 0
        = max (dateSub (berechne_enddatum sg.startdatum sg.regelstudienzeit)
            sg.startdatum) 0 := by
      unfold dateSub
      rw [hmin]
      omega
    rw [hvg]
    by_cases hgt0 : 0 < max (dateSub (berechne_enddatum sg.startdatum
        sg.regelstudienzeit) sg.startdatum) 0
    · have hds : 0 < dateSub (berechne_enddatum sg.startdatum sg.regelstudienzeit)
          sg.startdatum := by omega
      rw [if_pos hds, if_pos hgt0]
      have hcast : ((max (dateSub (berechne_enddatum sg.startdatum sg.regelstudienzeit)
            sg.startdatum) 0 : ℤ) : ℚ) ≠ 0 := by
        exact_mod_cast ne_of_gt hgt0
      rw [div_self hcast, min_self, mul_one, runde_full sg.ects_gesamt hg]
    · have hds : ¬ 0 < dateSub (berechne_enddatum sg.startdatum sg.regelstudienzeit)
          sg.startdatum := by omega
      rw [if_neg hds, if_neg hgt0]
      have hraw : (sg.ects_gesamt : ℚ) * min (0 : ℚ) 1 = 0 := by simp
      rw [hraw, runde_zero]

/-- C4 counterexample: with totalCredits = 8 and today past the planned end
date, the expected credits are 8 — not a multiple of 5 and not the
nearest-multiple-of-5 rounding (10) of totalCredits. -/
theorem C4_counterexample :
    (berechne_progress_daten sgCvier dFern).soll_ects = 8
    ∧ ¬ ((5 : ℤ) ∣ (berechne_progress_daten sgCvier dFern).soll_ects)
    ∧ dateLe (berechne_enddatum sgCvier.startdatum sgCvier.regelstudienzeit) dFern
    ∧ rhe ((sgCvier.ects_gesamt : ℚ) / 5) * 5 = 10 := by
  have h8 : (berechne_progress_daten sgCvier dFern).soll_ects = 8 := by
    norm_num [berechne_progress_daten, sgCvier, endCvier, runde_zu_modul_ects,
      Studiengang.berechneErreichteECTS, dateSub, minDate, toOrd_dStart, toOrd_dFern,
      toOrd_endCvier, rhe]
  refine ⟨h8, ?_, by decide, by norm_num [sgCvier, rhe]⟩
  rw [h8]
  decide

/-- Witness for C4 amended at the concrete program `sgW` and date 2025-09-01. -/
theorem C4_witness :
    (0 ≤ (berechne_progress_daten sgW dStart).soll_ects
      ∧ (berechne_progress_daten sgW dStart).soll_ects ≤ sgW.ects_gesamt)
    ∧ (dateLe dStart sgW.startdatum → (berechne_progress_daten sgW dStart).soll_ects = 0) := by
  obtain ⟨hb, _, hc, _⟩ := C4_amended sgW dStart (by decide)
  exact ⟨hb, hc⟩
